import Mathlib

/-!
Shallow embedding of `src/tracing/exporters/jaeger.js` (class `JaegerTraceExporter`)
and the relevant semantics of its collaborators:

* JavaScript values appearing in span tags are modelled by the mutual
  inductive `JVal` / `JFields` (objects are ordered association lists,
  matching JavaScript property-insertion order for string keys).
* `lodash`'s `_.defaultsDeep(dst, src1, src2)` (used at line 168 of the
  source) is modelled by `mergeVals` / `defaultsDeep3`, following lodash's
  documented semantics: properties of the destination that resolve to
  `undefined` are filled from the sources, left to right; when a destination
  value and a source value are both objects they are merged recursively
  (destination leaves win), mutating the destination object in place.
* The jaeger client objects (`Tracer`, `SpanContext`, spans created by
  `startSpan`) are modelled just deeply enough for the exporter code:
  a created span records its name, start time, `childOf` parent context,
  context and tag map; `setTag` upserts into the tag map.
-/

namespace JaegerSpec

mutual
/-- JavaScript values as they occur in span data: `undefined`, `null`,
booleans, numbers (modelled as rationals), strings, and plain objects. -/
inductive JVal : Type where
  | vUndefined : JVal
  | vNull : JVal
  | vBool : Bool → JVal
  | vNum : Rat → JVal
  | vStr : String → JVal
  | vObj : JFields → JVal
inductive JFields : Type where
  | nil : JFields
  | cons : String → JVal → JFields → JFields
end

deriving instance DecidableEq for JVal
deriving instance Repr for JVal

/-- First binding of a key in an object, in property order. -/
def JFields.lookup : JFields → String → Option JVal
  | .nil, _ => none
  | .cons k v r, key => if k = key then some v else r.lookup key

def JFields.append : JFields → JFields → JFields
  | .nil, b => b
  | .cons k v r, b => .cons k v (r.append b)

def JFields.hasKey (fs : JFields) (k : String) : Bool :=
  (fs.lookup k).isSome

/-- JavaScript truthiness of a `JVal` (`if (x)`): `undefined`, `null`,
`false`, `0` and the empty string are falsy, every object is truthy. -/
def truthy : JVal → Bool
  | .vUndefined => false
  | .vNull => false
  | .vBool b => b
  | .vNum q => decide (q ≠ 0)
  | .vStr s => decide (s ≠ "")
  | .vObj _ => true

/-- lodash `isObject`: true exactly for objects (note `isObject(null)` is
false, unlike `typeof null == "object"`). -/
def isObj : JVal → Bool
  | .vObj _ => true
  | _ => false

/-- Source fields whose key is absent from the destination; lodash appends
them (in source order) after the destination's own properties. -/
def newKeys : JFields → JFields → JFields
  | _, .nil => .nil
  | d, .cons k v r => if d.hasKey k then newKeys d r else .cons k v (newKeys d r)

-- One step of lodash `_.defaultsDeep(dst, src)` at the value level:
-- an `undefined` destination slot is filled from the source; two objects are
-- merged recursively (destination property order first, new source keys
-- appended); any other defined destination value is kept unchanged.
mutual
def mergeVals : JVal → JVal → JVal
  | .vUndefined, s => s
  | .vObj d, .vObj s => .vObj ((mergeOld d s).append (newKeys d s))
  | d, _ => d
def mergeOld : JFields → JFields → JFields
  | .nil, _ => .nil
  | .cons k v r, s =>
    .cons k (match s.lookup k with | some sv => mergeVals v sv | none => v) (mergeOld r s)
end

/-- `_.defaultsDeep(dst, a, b)`: sources are applied left to right. -/
def defaultsDeep3 (dst a b : JVal) : JVal :=
  mergeVals (mergeVals dst a) b

/-- The merge-defaults expression of `generateJaegerSpan` (source line 168):
`_.defaultsDeep({ service: span.service }, span.tags, this.defaultTags)`. -/
def mergeSpanTags (service tags defaultTags : JVal) : JVal :=
  defaultsDeep3 (.vObj (.cons "service" service .nil)) tags defaultTags

/-- Property access `v[k]` returning `undefined` when absent or when `v` is
not an object. -/
def objGetD (v : JVal) (k : String) : JVal :=
  match v with
  | .vObj fs => (fs.lookup k).getD .vUndefined
  | _ => .vUndefined

/-- Key lookup in a source value of the merge: objects expose their fields,
every other value contributes nothing. -/
def srcGet (x : JVal) (k : String) : Option JVal :=
  match x with
  | .vObj s => s.lookup k
  | _ => none

/-- Field list of `mergeVals (.vObj d) x`: merging a non-object source into
an object destination leaves the destination unchanged. -/
def mergeF (d : JFields) (x : JVal) : JFields :=
  match x with
  | .vObj s => (mergeOld d s).append (newKeys d s)
  | _ => d

/-- Dotted path extension used by the flattener: an empty current path keeps
the key as is. -/
def dotJoin (path k : String) : String :=
  if path = "" then k else path ++ "." ++ k

-- Modelled from the spec: the base exporter's `flattenTags` helper
-- (`this.flattenTags`, inherited from `./base`, is not part of the given
-- source tree). Per spec section 4.3: for a scalar value emit one entry
-- keyed by the current dotted path; for a nested mapping recurse into each
-- key, appending the key to the path, and emit all leaves.
mutual
def flattenV (path : String) : JVal → List (String × JVal)
  | .vObj fs => flattenF path fs
  | v => [(path, v)]
def flattenF (path : String) : JFields → List (String × JVal)
  | .nil => []
  | .cons k v r => flattenV (dotJoin path k) v ++ flattenF path r
end

/-- The tag name computed by `addTags` (source line 208):
`prefix ? prefix + "." + key : key` — note the JavaScript truthiness test,
under which an empty or absent prefix leaves the key bare. -/
def mkName (pre : Option String) (key : String) : String :=
  match pre with
  | some p => if p = "" then key else p ++ "." ++ key
  | none => key

-- `addTags(span, key, value, prefix)` (source lines 207-214), reified as the
-- ordered list of `setTag` calls it performs. JavaScript's `typeof null`
-- is `"object"`, so a `null` value reaches `Object.keys(null)`, which throws
-- a TypeError: this is modelled by returning `none`. Objects recurse into
-- each key with the extended prefix; every other value yields one tag.
mutual
def addTagsV (key : String) (v : JVal) (pre : Option String) :
    Option (List (String × JVal)) :=
  match v with
  | .vNull => none
  | .vObj fs => addTagsF fs (mkName pre key)
  | w => some [(mkName pre key, w)]
def addTagsF : JFields → String → Option (List (String × JVal))
  | .nil, _ => some []
  | .cons k v r, name =>
    match addTagsV k v (some name), addTagsF r name with
    | some a, some b => some (a ++ b)
    | _, _ => none
end

/-- Jaeger span tag maps, keyed by tag name. -/
def lookupTag : List (String × JVal) → String → Option JVal
  | [], _ => none
  | (k', v) :: r, k => if k' = k then some v else lookupTag r k

/-- `span.setTag(name, value)` on the jaeger span's tag dictionary: replace
the existing binding in place (JavaScript keeps the property's position), or
append a new one. -/
def setTag : List (String × JVal) → String → JVal → List (String × JVal)
  | [], k, v => [(k, v)]
  | (k1, v1) :: r, k, v =>
    if k1 = k then (k, v) :: r else (k1, v1) :: setTag r k v

/-- A sequence of `setTag` calls, in order. -/
def applyTags (t : List (String × JVal)) (new : List (String × JVal)) :
    List (String × JVal) :=
  new.foldl (fun acc kv => setTag acc kv.1 kv.2) t

/-- Value of a single hexadecimal digit, case-insensitive. -/
def hexDigit (c : Char) : Option Nat :=
  if '0' ≤ c ∧ c ≤ '9' then some (c.toNat - Char.toNat '0')
  else if 'a' ≤ c ∧ c ≤ 'f' then some (c.toNat - Char.toNat 'a' + 10)
  else if 'A' ≤ c ∧ c ≤ 'F' then some (c.toNat - Char.toNat 'A' + 10)
  else none

/-- `Buffer.from(s, "hex")`: decode characters pairwise into bytes, most
significant digit first, stopping at the first invalid pair (a dangling odd
character is dropped). -/
def hexPairs : List Char → List Nat
  | c1 :: c2 :: rest =>
    match hexDigit c1, hexDigit c2 with
    | some h, some l => (16 * h + l) :: hexPairs rest
    | _, _ => []
  | _ => []

/-- `convertID(id)` (source lines 222-228): a falsy id (absent or the empty
string) yields `null`; otherwise all hyphen characters are stripped by the
global-regex replace, the first 16 characters are taken
(`.substring(0, 16)`) and hex-decoded big-endian into bytes. -/
def convertID : Option String → Option (List Nat)
  | some s =>
    if s = "" then none
    else some (hexPairs ((s.data.filter (fun c => c ≠ '-')).take 16))
  | none => none

/-- JavaScript `.toString()` on a truthy value, as used for `error.stack`
(number formatting is approximated by the rational's representation; the
claims only exercise string-valued stacks). -/
def jsToString : JVal → String
  | .vStr s => s
  | .vBool b => if b then "true" else "false"
  | .vNum q => toString q
  | .vObj _ => "[object Object]"
  | .vNull => "null"
  | .vUndefined => "undefined"

-- A value is null-free when no `null` occurs in it, at the top or nested
-- inside an object: exactly the values `addTags` can walk without throwing.
mutual
def nullFree : JVal → Bool
  | .vNull => false
  | .vObj fs => nullFreeF fs
  | _ => true
def nullFreeF : JFields → Bool
  | .nil => true
  | .cons _ v r => nullFree v && nullFreeF r
end

/-- The sampler option fields read by `getSampler`; an absent field models
`undefined` (and, for `decision`, also `null`, via the `!= null` test). -/
structure SamplerOptions where
  maxTracesPerSecond : Option Rat := none
  initBalance : Option Rat := none
  samplingRate : Option Rat := none
  lowerBound : Option Rat := none
  decision : Option Rat := none
deriving DecidableEq, Repr

/-- `this.opts.sampler`: either a caller-supplied sampler instance (the
`_.isFunction` branch, identified by an id) or a `{type, options}`
configuration object. -/
inductive SamplerConfig : Type where
  | funcSampler : Nat → SamplerConfig
  | conf : String → SamplerOptions → SamplerConfig
deriving DecidableEq, Repr

/-- The sampler instances `getSampler` can construct, recording the
constructor arguments used at each `new` expression. -/
inductive Sampler : Type where
  | custom : Nat → Sampler
  | rateLimiting : Option Rat → Option Rat → Sampler
  | probabilistic : Option Rat → Sampler
  | guaranteedThroughput : Option Rat → Option Rat → Sampler
  | remoteControlled : Option JVal → SamplerOptions → Sampler
  | constSampler : Rat → Sampler
deriving DecidableEq, Repr

/-- `getSampler(serviceName)` (source lines 92-109): dispatch on the
configured sampler type string, falling through to a `ConstSampler` whose
decision defaults to `1` when `options.decision` is null or undefined.
`serviceName` is the function's parameter (which the only call site,
`getTracer`, leaves undefined). -/
def getSampler (cfg : SamplerConfig) (serviceName : Option JVal) : Sampler :=
  match cfg with
  | .funcSampler i => .custom i
  | .conf t o =>
    if t = "RateLimiting" then .rateLimiting o.maxTracesPerSecond o.initBalance
    else if t = "Probabilistic" then .probabilistic o.samplingRate
    else if t = "GuaranteedThroughput" then .guaranteedThroughput o.lowerBound o.samplingRate
    else if t = "RemoteControlled" then .remoteControlled serviceName o
    else .constSampler (o.decision.getD 1)

/-- A jaeger tracer as constructed by `getTracer`: `new Jaeger.Tracer(
serviceName, reporter, sampler, tracerOptions)`. `tracerId` numbers the
`new` expression that created the instance, modelling reference identity:
two tracers are the same JavaScript object exactly when their ids agree. -/
structure Tracer where
  serviceName : JVal
  sampler : Sampler
  reporterId : Nat
  tracerId : Nat
deriving DecidableEq, Repr

/-- The exporter state the registry lives in: `this.tracers` (an object
keyed by service name) plus a counter supplying fresh object identities. -/
structure ExporterState where
  tracers : List (JVal × Tracer)
  nextId : Nat
deriving DecidableEq, Repr

/-- Lookup of `this.tracers[serviceName]`. -/
def findTracer : List (JVal × Tracer) → JVal → Option Tracer
  | [], _ => none
  | kv :: r, k => if kv.1 = k then some kv.2 else findTracer r k

/-- `getTracer(serviceName)` (source lines 117-128): return the cached
tracer when one exists (tracer objects are always truthy); otherwise build a
sampler — note the source calls `this.getSampler()` with no argument, so
the sampler sees an undefined service name — and a fresh reporter, construct
the tracer, store it and return it. -/
def getTracer (cfg : SamplerConfig) (st : ExporterState) (serviceName : JVal) :
    Tracer × ExporterState :=
  match findTracer st.tracers serviceName with
  | some tr => (tr, st)
  | none =>
    let sampler := getSampler cfg none
    let tr : Tracer :=
      { serviceName := serviceName, sampler := sampler,
        reporterId := st.nextId, tracerId := st.nextId }
    (tr, { tracers := st.tracers ++ [(serviceName, tr)], nextId := st.nextId + 1 })

/-- The fields of `span.error` read by the converter; `vUndefined` stands for an
absent field. -/
structure JErr where
  name : JVal := .vUndefined
  message : JVal := .vUndefined
  type : JVal := .vUndefined
  code : JVal := .vUndefined
  data : JVal := .vUndefined
  stack : JVal := .vUndefined
deriving DecidableEq, Repr

/-- The internal moleculer span handed to `finishSpan` and
`generateJaegerSpan`, restricted to the fields the converter reads.
Identifier fields are optional strings (`none` models an absent id). -/
structure MolSpan where
  id : Option String := none
  traceID : Option String := none
  parentID : Option String := none
  name : String := ""
  service : JVal := .vUndefined
  tags : JVal := .vUndefined
  startTime : Option Rat := none
  endTime : Option Rat := none
  error : Option JErr := none
deriving DecidableEq, Repr

/-- JavaScript truthiness of an optional string, as used by
`if (span.parentID)` and `convertID`: absent or empty is falsy. -/
def jsTruthyStr : Option String → Bool
  | some s => decide (s ≠ "")
  | none => false

/-- `span.service ? span.service.name : null` (source line 147). -/
def serviceNameOf (span : MolSpan) : JVal :=
  if truthy span.service then objGetD span.service "name" else .vNull

/-- A `Jaeger.SpanContext`: converted ids are byte buffers or `null`;
baggage is a string map. -/
structure SpanContext where
  traceId : Option (List Nat)
  spanId : Option (List Nat)
  flags : Nat
  baggage : List (String × String)
deriving DecidableEq, Repr

/-- The jaeger span as far as the exporter observes it: the fields set by
`tracer.startSpan` plus the later mutations (`setTag`, the context-id
overwrites, `finish`). -/
structure JaegerSpan where
  name : String
  startTime : Option Rat
  parent : Option SpanContext
  context : SpanContext
  tags : List (String × JVal)
  finishTime : Option Rat
  finished : Bool
deriving DecidableEq, Repr

/-- Outcome of one `generateJaegerSpan` call: the finished jaeger span
(`none` when a TypeError escaped from `addTags`), the registry state after
the embedded `getTracer` call, and the value of the `span.service` object
after the call. `_.defaultsDeep` mutates its destination in place, and the
destination `{ service: span.service }` holds `span.service` by reference:
when `span.service` is an object, its post-call value is whatever the merge
left under the `service` key; scalars are immutable and unchanged. -/
structure GenResult where
  jspan : Option JaegerSpan
  state : ExporterState
  serviceAfter : JVal
deriving DecidableEq, Repr

/-- The parent context built at source lines 151-163 when `span.parentID`
is truthy: converted trace and parent ids, flags fixed at `1`, empty
baggage. -/
def parentCtxOf (span : MolSpan) : Option SpanContext :=
  if jsTruthyStr span.parentID then
    some { traceId := convertID span.traceID, spanId := convertID span.parentID,
           flags := 1, baggage := [] }
  else none

/-- The `setTag` calls of the error block (source lines 180-192), in order:
`error = true`, then the four field tags, then `error.data` if truthy and
`error.stack` (stringified) if truthy; `none` when any `addTags` call
throws on a `null`. -/
def errorTags (e : JErr) : Option (List (String × JVal)) :=
  match addTagsV "error.name" e.name none, addTagsV "error.message" e.message none,
        addTagsV "error.type" e.type none, addTagsV "error.code" e.code none with
  | some n, some m, some t, some c =>
    match (if truthy e.data then addTagsV "error.data" e.data none else some []) with
    | some d =>
      let stk := if truthy e.stack then [("error.stack", JVal.vStr (jsToString e.stack))] else []
      some ([("error", JVal.vBool true)] ++ n ++ m ++ t ++ c ++ d ++ stk)
    | none => none
  | _, _, _, _ => none

/-- The jaeger span's tag map just before the error block: the flattened
merge-defaults tags passed to `startSpan` (line 168), then
`addTags(jaegerSpan, "service", serviceName)` (line 173, which throws when
`serviceName` is `null`), then the fixed `span.kind = "server"` tag
(line 174). -/
def preErrorTags (defaultTags : JVal) (span : MolSpan) :
    Option (List (String × JVal)) :=
  (addTagsV "service" (serviceNameOf span) none).map (fun sTags =>
    setTag
      (applyTags
        (applyTags [] (flattenV "" (mergeSpanTags span.service span.tags defaultTags)))
        sTags)
      "span.kind" (.vStr "server"))

/-- `generateJaegerSpan(span)` (source lines 146-197), parameterised by the
sampler configuration, the (already flattened) `this.defaultTags`, the
registry state, and the context `autoCtx` that the jaeger tracer generated
for the new span before the exporter overwrites its ids. -/
def generateJaegerSpan (cfg : SamplerConfig) (defaultTags : JVal)
    (st : ExporterState) (span : MolSpan) (autoCtx : SpanContext) : GenResult :=
  let serviceName := serviceNameOf span
  let st1 := (getTracer cfg st serviceName).2
  let merged := mergeSpanTags span.service span.tags defaultTags
  let serviceAfter := if isObj span.service then objGetD merged "service" else span.service
  match preErrorTags defaultTags span with
  | none => { jspan := none, state := st1, serviceAfter := serviceAfter }
  | some tags2 =>
    let ctx2 : SpanContext :=
      { autoCtx with traceId := convertID span.traceID, spanId := convertID span.id }
    let finish : List (String × JVal) → JaegerSpan := fun tg =>
      { name := span.name, startTime := span.startTime, parent := parentCtxOf span,
        context := ctx2, tags := tg, finishTime := span.endTime, finished := true }
    match span.error with
    | none => { jspan := some (finish tags2), state := st1, serviceAfter := serviceAfter }
    | some e =>
      match errorTags e with
      | none => { jspan := none, state := st1, serviceAfter := serviceAfter }
      | some ets =>
        { jspan := some (finish (applyTags tags2 ets)), state := st1,
          serviceAfter := serviceAfter }

/-- Last binding of a key in a list of `setTag` instructions: the value the
final `setTag` for that key leaves behind. -/
def lastV : List (String × JVal) → String → Option JVal
  | [], _ => none
  | (k', v) :: r, k =>
    match lastV r k with
    | some w => some w
    | none => if k' = k then some v else none

/-- Registry well-formedness: every cached tracer carries an identity below
the fresh-id counter, and identities are pairwise distinct (distinct
JavaScript objects). The initial state `⟨[], 0⟩` is well formed, and
`getTracer` preserves the property. -/
def WFReg (st : ExporterState) : Prop :=
  (∀ kv ∈ st.tracers, kv.2.tracerId < st.nextId) ∧
    st.tracers.Pairwise (fun a b => a.2.tracerId ≠ b.2.tracerId)

/-- No object value sits under the `service` key of a merge source: the
condition under which the defaults merge cannot deep-merge into (and hence
mutate) a `span.service` object. -/
def svcSrcOk (x : JVal) : Bool :=
  match srcGet x "service" with
  | some (.vObj _) => false
  | _ => true

/-! ## Concrete fixtures used by witnesses and counterexamples -/

/-- Sampler configuration used by concrete instances: the defaulted
`Const` sampler. -/
def wCfg : SamplerConfig := .conf "Const" {}

/-- A trivial auto-generated backend context. -/
def wAuto0 : SpanContext := { traceId := none, spanId := none, flags := 0, baggage := [] }

/-- Concrete span exercising parent linkage and id overwriting. -/
def w5span : MolSpan :=
  { id := some "abcdef12-3456-7890-abcd-ef1234567890",
    traceID := some "00112233-4455-6677-8899-aabbccddeeff",
    parentID := some "ffeeddcc-bbaa-9988-7766-554433221100",
    name := "op", service := .vObj (.cons "name" (.vStr "svc") .nil),
    tags := .vObj (.cons "x" (.vNum 1) .nil),
    startTime := some 5, endTime := some 9 }

/-- An auto-generated backend context with junk ids, flags and baggage. -/
def w5auto : SpanContext :=
  { traceId := some [1], spanId := some [2], flags := 7, baggage := [("b", "c")] }

/-- The jaeger span produced for `w5span`. -/
def w5out : JaegerSpan :=
  { name := "op", startTime := some 5,
    parent := some { traceId := some [0, 17, 34, 51, 68, 85, 102, 119],
                     spanId := some [255, 238, 221, 204, 187, 170, 153, 136],
                     flags := 1, baggage := [] },
    context := { traceId := some [0, 17, 34, 51, 68, 85, 102, 119],
                 spanId := some [171, 205, 239, 18, 52, 86, 120, 144],
                 flags := 7, baggage := [("b", "c")] },
    tags := [("service.name", .vStr "svc"), ("x", .vNum 1),
             ("service", .vStr "svc"), ("span.kind", .vStr "server")],
    finishTime := some 9, finished := true }

/-- The specification's example error object: all four fields scalar,
no data, no stack. -/
def w7err : JErr :=
  { name := .vStr "E", message := .vStr "boom", type := .vStr "T", code := .vNum 500 }

/-- Concrete span carrying `w7err`. -/
def w7span : MolSpan :=
  { id := some "00", traceID := some "01", name := "op",
    service := .vObj (.cons "name" (.vStr "svc") .nil),
    tags := .vObj .nil, error := some w7err }

/-- The pre-error tag map of `w7span`. -/
def w7pt : List (String × JVal) :=
  [("service.name", .vStr "svc"), ("service", .vStr "svc"), ("span.kind", .vStr "server")]

/-- An error object whose `data` field is present but falsy (`false`). -/
def c7err : JErr :=
  { name := .vStr "E", message := .vStr "boom", type := .vStr "T", code := .vNum 500,
    data := .vBool false }

/-- Concrete span carrying `c7err`. -/
def c7span : MolSpan :=
  { id := some "00", traceID := some "01", name := "op",
    service := .vObj (.cons "name" (.vStr "svc") .nil),
    tags := .vObj .nil, error := some c7err }

/-- Concrete span whose error has a null-valued `name` field. -/
def c8span : MolSpan :=
  { id := some "00", traceID := some "01", name := "op",
    service := .vObj (.cons "name" (.vStr "svc") .nil),
    tags := .vObj .nil,
    error := some { name := .vNull, message := .vStr "boom", type := .vStr "T",
                    code := .vNum 500 } }

/-- Concrete span whose tags carry an object under the `service` key. -/
def c10span : MolSpan :=
  { id := some "00", traceID := some "01", name := "op",
    service := .vObj (.cons "name" (.vStr "svc") .nil),
    tags := .vObj (.cons "service" (.vObj (.cons "version" (.vNum 2) .nil)) .nil) }

/-- Concrete span whose tags have no `service` key. -/
def w10span : MolSpan :=
  { id := some "00", traceID := some "01", name := "op",
    service := .vObj (.cons "name" (.vStr "svc") .nil),
    tags := .vObj (.cons "x" (.vNum 1) .nil) }

/-! ## General lemmas about the merge-defaults operation -/

theorem mergeVals_obj (d : JFields) (x : JVal) :
    mergeVals (.vObj d) x = .vObj (mergeF d x) := by
  cases x <;> rfl

theorem mergeVals_scalar {v : JVal} (h1 : v ≠ .vUndefined) (h2 : isObj v = false)
    (x : JVal) : mergeVals v x = v := by
  cases v <;> simp [isObj] at * <;> cases x <;> rfl

theorem lookup_append : ∀ (a b : JFields) (k : String),
    (a.append b).lookup k =
      match a.lookup k with
      | some v => some v
      | none => b.lookup k
  | .nil, _, _ => rfl
  | .cons k' v r, b, k => by
    by_cases h : k' = k <;> simp [JFields.append, JFields.lookup, h, lookup_append r b k]

theorem lookup_mergeOld : ∀ (d s : JFields) (k : String),
    (mergeOld d s).lookup k =
      (d.lookup k).map (fun v =>
        match s.lookup k with
        | some sv => mergeVals v sv
        | none => v)
  | .nil, _, _ => rfl
  | .cons k' v r, s, k => by
    by_cases h : k' = k <;> simp [mergeOld, JFields.lookup, h, lookup_mergeOld r s k]

theorem lookup_newKeys : ∀ (d s : JFields) (k : String),
    (newKeys d s).lookup k = if d.hasKey k then none else s.lookup k
  | d, .nil, k => by cases h : d.hasKey k <;> simp [newKeys, JFields.lookup, h]
  | d, .cons k' v r, k => by
    by_cases hk : k' = k
    · subst hk
      cases h : d.hasKey k' <;>
        simp [newKeys, JFields.lookup, h, lookup_newKeys d r k']
    · cases h : d.hasKey k' <;>
        simp [newKeys, JFields.lookup, h, hk, lookup_newKeys d r k]

theorem lookup_mergeF (d : JFields) (x : JVal) (k : String) :
    (mergeF d x).lookup k =
      match d.lookup k with
      | some v => some (match srcGet x k with
                        | some sv => mergeVals v sv
                        | none => v)
      | none => srcGet x k := by
  cases hd : d.lookup k <;> cases x <;>
    simp [mergeF, srcGet, lookup_append, lookup_mergeOld, lookup_newKeys,
      JFields.hasKey, hd]

theorem mergeSpanTags_eq (sv tags dflt : JVal) :
    mergeSpanTags sv tags dflt =
      .vObj (mergeF (mergeF (.cons "service" sv .nil) tags) dflt) := by
  simp [mergeSpanTags, defaultsDeep3, mergeVals_obj]

/-! ## General lemmas about the jaeger span tag map -/

theorem lookupTag_append (a b : List (String × JVal)) (k : String) :
    lookupTag (a ++ b) k =
      match lookupTag a k with
      | some v => some v
      | none => lookupTag b k := by
  induction a with
  | nil => rfl
  | cons kv r ih =>
    obtain ⟨k1, v1⟩ := kv
    by_cases h : k1 = k <;> simp [lookupTag, h, ih]

theorem lookupTag_setTag_self (t : List (String × JVal)) (k : String) (v : JVal) :
    lookupTag (setTag t k v) k = some v := by
  induction t with
  | nil => simp [setTag, lookupTag]
  | cons kv r ih =>
    obtain ⟨k1, v1⟩ := kv
    by_cases h : k1 = k <;> simp [setTag, lookupTag, h, ih]

theorem lookupTag_setTag_other (t : List (String × JVal)) {k k' : String}
    (hkk : k' ≠ k) (v : JVal) :
    lookupTag (setTag t k v) k' = lookupTag t k' := by
  induction t with
  | nil => simp [setTag, lookupTag, Ne.symm hkk]
  | cons kv r ih =>
    obtain ⟨k1, v1⟩ := kv
    by_cases h : k1 = k
    · subst h
      simp [setTag, lookupTag, Ne.symm hkk]
    · by_cases h2 : k1 = k' <;> simp [setTag, lookupTag, h, h2, hkk, ih]

theorem lookupTag_applyTags (new : List (String × JVal)) :
    ∀ (t : List (String × JVal)) (k : String),
    lookupTag (applyTags t new) k =
      match lastV new k with
      | some v => some v
      | none => lookupTag t k := by
  induction new with
  | nil => intro t k; rfl
  | cons kv r ih =>
    intro t k
    show lookupTag (applyTags (setTag t kv.1 kv.2) r) k = _
    rw [ih]
    cases hl : lastV r k with
    | some w => simp [lastV, hl]
    | none =>
      by_cases h : kv.1 = k
      · subst h
        simp [lastV, hl, lookupTag_setTag_self]
      · simp [lastV, hl, h, lookupTag_setTag_other t (Ne.symm h)]

/-! ## General lemmas about `addTags` -/

theorem addTagsV_scalar (k : String) {v : JVal} (pre : Option String)
    (h1 : isObj v = false) (h2 : v ≠ .vNull) :
    addTagsV k v pre = some [(mkName pre k, v)] := by
  cases v <;> simp [isObj] at * <;> rfl

-- A null-free value never makes `addTags` throw; proved by the mutual
-- structural induction matching the mutual recursion of `addTagsV`.
mutual
theorem addTagsV_total : ∀ (k : String) (v : JVal) (pre : Option String),
    nullFree v = true → (addTagsV k v pre).isSome = true
  | _, .vUndefined, _, _ => rfl
  | _, .vBool _, _, _ => rfl
  | _, .vNum _, _, _ => rfl
  | _, .vStr _, _, _ => rfl
  | k, .vObj fs, pre, h => addTagsF_total fs (mkName pre k) h
theorem addTagsF_total : ∀ (fs : JFields) (name : String),
    nullFreeF fs = true → (addTagsF fs name).isSome = true
  | .nil, _, _ => rfl
  | .cons k v r, name, h => by
    have hv : nullFree v = true := by
      have := h
      simp [nullFreeF] at this
      exact this.1
    have hr : nullFreeF r = true := by
      have := h
      simp [nullFreeF] at this
      exact this.2
    have h1 := addTagsV_total k v (some name) hv
    have h2 := addTagsF_total r name hr
    cases ha : addTagsV k v (some name) with
    | none => rw [ha] at h1; simp at h1
    | some a =>
      cases hb : addTagsF r name with
      | none => rw [hb] at h2; simp at h2
      | some b => simp [addTagsF, ha, hb]
end

/-! ## General lemmas about the tracer registry -/

theorem findTracer_append_self {ts : List (JVal × Tracer)} {k : JVal}
    (h : findTracer ts k = none) (tr : Tracer) :
    findTracer (ts ++ [(k, tr)]) k = some tr := by
  induction ts with
  | nil => simp [findTracer]
  | cons kv r ih =>
    by_cases hk : kv.1 = k
    · simp [findTracer, hk] at h
    · simp [findTracer, hk] at h ⊢
      exact ih h

theorem findTracer_append_other {k k' : JVal} (hkk : k ≠ k')
    (ts : List (JVal × Tracer)) (tr : Tracer) :
    findTracer (ts ++ [(k, tr)]) k' = findTracer ts k' := by
  induction ts with
  | nil => simp [findTracer, hkk]
  | cons kv r ih =>
    by_cases hk : kv.1 = k' <;> simp [findTracer, hk, ih]

theorem findTracer_mem : ∀ {ts : List (JVal × Tracer)} {k : JVal} {tr : Tracer},
    findTracer ts k = some tr → (k, tr) ∈ ts := by
  intro ts
  induction ts with
  | nil => intro k tr h; simp [findTracer] at h
  | cons kv r ih =>
    intro k tr h
    by_cases hk : kv.1 = k
    · simp [findTracer, hk] at h
      have hkv : kv = (k, tr) := by
        obtain ⟨k1, t1⟩ := kv
        simp at hk h
        rw [hk, h]
      rw [← hkv]
      exact List.mem_cons_self kv r
    · simp [findTracer, hk] at h
      exact List.mem_cons_of_mem _ (ih h)

/-! ## Structural lemmas about `generateJaegerSpan` -/

theorem gen_serviceAfter (cfg : SamplerConfig) (defaultTags : JVal)
    (st : ExporterState) (span : MolSpan) (autoCtx : SpanContext) :
    (generateJaegerSpan cfg defaultTags st span autoCtx).serviceAfter =
      if isObj span.service then
        objGetD (mergeSpanTags span.service span.tags defaultTags) "service"
      else span.service := by
  rcases hpt : preErrorTags defaultTags span with _ | pt
  · simp [generateJaegerSpan, hpt]
  · rcases herr : span.error with _ | e
    · simp [generateJaegerSpan, hpt, herr]
    · rcases hets : errorTags e with _ | ets <;>
        simp [generateJaegerSpan, hpt, herr, hets]

/-- Inversion: whenever the conversion completes, the resulting jaeger span
is the finished record built from the span's own fields, the overwritten
context ids, the parent context of `parentCtxOf`, and a tag map that is the
pre-error tags possibly extended by the error tags. -/
theorem gen_jspan_inv {cfg : SamplerConfig} {defaultTags : JVal}
    {st : ExporterState} {span : MolSpan} {autoCtx : SpanContext}
    {j : JaegerSpan}
    (h : (generateJaegerSpan cfg defaultTags st span autoCtx).jspan = some j) :
    ∃ pt, preErrorTags defaultTags span = some pt ∧
      ((span.error = none ∧ j.tags = pt) ∨
        (∃ e ets, span.error = some e ∧ errorTags e = some ets ∧
          j.tags = applyTags pt ets)) ∧
      j.name = span.name ∧
      j.startTime = span.startTime ∧
      j.finishTime = span.endTime ∧
      j.finished = true ∧
      j.parent = parentCtxOf span ∧
      j.context = { autoCtx with traceId := convertID span.traceID,
                                 spanId := convertID span.id } := by
  rcases hpt : preErrorTags defaultTags span with _ | pt
  · simp [generateJaegerSpan, hpt] at h
  · rcases herr : span.error with _ | e
    · simp [generateJaegerSpan, hpt, herr] at h
      refine ⟨pt, rfl, Or.inl ⟨rfl, ?_⟩, ?_⟩ <;> rw [← h]
      simp
    · rcases hets : errorTags e with _ | ets
      · simp [generateJaegerSpan, hpt, herr, hets] at h
      · simp [generateJaegerSpan, hpt, herr, hets] at h
        refine ⟨pt, rfl, Or.inr ⟨e, ets, rfl, hets, ?_⟩, ?_⟩ <;> rw [← h]
        simp

/-- Merging a non-object source into an object destination changes
nothing. -/
theorem mergeVals_obj_nonobj {w : JVal} (hw : isObj w = false) (d : JFields) :
    mergeVals (.vObj d) w = .vObj d := by
  cases w <;> simp [isObj] at * <;> rfl

/-- A true `svcSrcOk` check means any `service` entry of the source is a
non-object. -/
theorem svcSrcOk_spec {x : JVal} (h : svcSrcOk x = true) :
    ∀ w, srcGet x "service" = some w → isObj w = false := by
  intro w hw
  unfold svcSrcOk at h
  rw [hw] at h
  cases w <;> simp [isObj] at h ⊢

/-! ## Claims -/

/-- C1, counterexample to the claim as stated. The claim asserts that at
every key collision the `span.tags` value wins over the synthesized
`service` tag. With `span.service = "real"` and `span.tags = {service:
"fake"}`, the merge-defaults operation keeps `"real"` under the `service`
key: the destination of `_.defaultsDeep` — the synthesized `{service:
span.service}` object — wins, so `span.tags` does not. -/
theorem claim_C1_counterexample :
    objGetD (mergeSpanTags (.vStr "real")
      (.vObj (.cons "service" (.vStr "fake") .nil)) .vNull) "service" = .vStr "real" ∧
    JVal.vStr "real" ≠ .vStr "fake" := by
  decide

/-- C1, amended: in the tag merge performed by the span converter, the
synthesized `service` tag has the HIGHEST priority of the three merge
inputs — a defined (non-undefined) non-object `span.service` value survives
any collision from `span.tags` or `defaultTags`; `span.tags` values win
over `defaultTags` values at every other key; and for
`span.tags = {x: 1}` and `defaultTags = {x: 2, y: 3}` the merged tags map
`x` to `1` and `y` to `3`. -/
theorem claim_C1_amended :
    (∀ (sv tags dflt : JVal), sv ≠ .vUndefined → isObj sv = false →
      objGetD (mergeSpanTags sv tags dflt) "service" = sv) ∧
    (∀ (sv dflt : JVal) (tf : JFields) (k : String) (v : JVal),
      k ≠ "service" → tf.lookup k = some v → v ≠ .vUndefined → isObj v = false →
      objGetD (mergeSpanTags sv (.vObj tf) dflt) k = v) ∧
    (objGetD (mergeSpanTags (.vObj (.cons "name" (.vStr "svc") .nil))
        (.vObj (.cons "x" (.vNum 1) .nil))
        (.vObj (.cons "x" (.vNum 2) (.cons "y" (.vNum 3) .nil)))) "x" = .vNum 1 ∧
      objGetD (mergeSpanTags (.vObj (.cons "name" (.vStr "svc") .nil))
        (.vObj (.cons "x" (.vNum 1) .nil))
        (.vObj (.cons "x" (.vNum 2) (.cons "y" (.vNum 3) .nil)))) "y" = .vNum 3) := by
  refine ⟨?_, ?_, by decide, by decide⟩
  · intro sv tags dflt h1 h2
    have hbase : (JFields.cons "service" sv .nil).lookup "service" = some sv := by
      simp [JFields.lookup]
    have hinner :
        (mergeF (.cons "service" sv .nil) tags).lookup "service" = some sv := by
      rw [lookup_mergeF, hbase]
      cases srcGet tags "service" with
      | none => rfl
      | some sv2 => simp [mergeVals_scalar h1 h2]
    rw [mergeSpanTags_eq]
    show ((mergeF (mergeF (.cons "service" sv .nil) tags) dflt).lookup
      "service").getD .vUndefined = sv
    rw [lookup_mergeF, hinner]
    cases srcGet dflt "service" with
    | none => rfl
    | some dv => simp [mergeVals_scalar h1 h2]
  · intro sv dflt tf k v hk hv h1 h2
    have hbase : (JFields.cons "service" sv .nil).lookup k = none := by
      simp [JFields.lookup]
      exact fun h => hk h.symm
    have hinner : (mergeF (.cons "service" sv .nil) (.vObj tf)).lookup k = some v := by
      rw [lookup_mergeF, hbase]
      simpa [srcGet] using hv
    rw [mergeSpanTags_eq]
    show ((mergeF (mergeF (.cons "service" sv .nil) (.vObj tf)) dflt).lookup
      k).getD .vUndefined = v
    rw [lookup_mergeF, hinner]
    cases srcGet dflt k with
    | none => rfl
    | some dv => simp [mergeVals_scalar h1 h2]

/-- C1, witness: the amended highest-priority statement and the
tags-over-defaults statement at concrete inputs. -/
theorem claim_C1_witness :
    objGetD (mergeSpanTags (.vStr "A")
      (.vObj (.cons "service" (.vStr "B") .nil)) .vNull) "service" = .vStr "A" ∧
    objGetD (mergeSpanTags (.vStr "A") (.vObj (.cons "q" (.vNum 7) .nil))
      (.vObj (.cons "q" (.vNum 8) .nil))) "q" = .vNum 7 :=
  ⟨claim_C1_amended.1 _ _ _ (by decide) (by decide),
   claim_C1_amended.2.1 _ _ _ _ _ (by decide) (by decide) (by decide) (by decide)⟩

/-- C3, behaviour of the source at the failing input: with a
`RemoteControlled` sampler configuration, the tracer that `getTracer`
creates for service name `"my-service"` carries a remote-controlled sampler
seeded with an UNDEFINED service name (`none`), not with `"my-service"`,
because `getTracer` invokes `this.getSampler()` without passing
`serviceName` along. -/
theorem claim_C3_bug :
    (getTracer (.conf "RemoteControlled" { samplingRate := some 0.1 }) ⟨[], 0⟩
        (.vStr "my-service")).1.sampler =
      .remoteControlled none { samplingRate := some 0.1 } ∧
    Sampler.remoteControlled none { samplingRate := some 0.1 } ≠
      .remoteControlled (some (.vStr "my-service")) { samplingRate := some 0.1 } := by
  constructor
  · rfl
  · intro h
    simp at h

/-- C4: `convertID` maps every falsy id (absent or empty) to null, and every
non-empty string to the big-endian hex decoding of the first 16 characters
of the hyphen-stripped string; on the hyphenated example id this is the
8-byte decoding of `"abcdef1234567890"`. -/
theorem claim_C4 :
    (∀ s : String, s ≠ "" →
      convertID (some s) =
        some (hexPairs ((s.data.filter (fun c => c ≠ '-')).take 16))) ∧
    convertID none = none ∧
    convertID (some "") = none ∧
    convertID (some "abcdef12-3456-7890-abcd-ef1234567890") =
      some [0xab, 0xcd, 0xef, 0x12, 0x34, 0x56, 0x78, 0x90] := by
  refine ⟨fun s hs => ?_, rfl, by decide, by decide⟩
  simp [convertID, hs]

/-- C4, witness: the general non-falsy branch applied to the example id. -/
theorem claim_C4_witness :
    convertID (some "abcdef12-3456-7890-abcd-ef1234567890") =
      some (hexPairs ((("abcdef12-3456-7890-abcd-ef1234567890").data.filter
        (fun c => c ≠ '-')).take 16)) :=
  claim_C4.1 _ (by decide)

/-- C6: a `Probabilistic` configuration with `samplingRate` 0.5 yields a
probabilistic sampler with rate 0.5, and every configuration whose type
string is none of the four recognised ones yields — without raising — the
constant sampler with decision 1 when no decision option is given
(`getSampler` is a total function: no branch can throw). -/
theorem claim_C6 :
    (∀ sn : Option JVal,
      getSampler (.conf "Probabilistic" { samplingRate := some 0.5 }) sn =
        .probabilistic (some 0.5)) ∧
    (∀ (t : String) (o : SamplerOptions) (sn : Option JVal),
      t ≠ "RateLimiting" → t ≠ "Probabilistic" → t ≠ "GuaranteedThroughput" →
      t ≠ "RemoteControlled" → o.decision = none →
      getSampler (.conf t o) sn = .constSampler 1) := by
  constructor
  · intro sn
    rfl
  · intro t o sn h1 h2 h3 h4 hd
    simp [getSampler, h1, h2, h3, h4, hd]

/-- C6, witness: the fall-through branch at the unrecognised type string
`"Bogus"` with empty options, and the probabilistic branch. -/
theorem claim_C6_witness :
    getSampler (.conf "Probabilistic" { samplingRate := some 0.5 }) none =
      .probabilistic (some 0.5) ∧
    getSampler (.conf "Bogus" {}) none = .constSampler 1 :=
  ⟨claim_C6.1 none,
   claim_C6.2 "Bogus" {} none (by decide) (by decide) (by decide) (by decide) rfl⟩

/-- C9: `addTags` emits exactly one entry keyed by the current dotted path
for a scalar (non-object, non-null) value; recurses into each key of a
nested mapping under the extended path name; a truthy prefix extends the
path as `prefix ++ "." ++ key`; and flattening `{a: {b: 1, c: 2}}` under
prefix `"x"` yields exactly `{"x.a.b": 1, "x.a.c": 2}`. -/
theorem claim_C9 :
    (∀ (k : String) (pre : Option String) (v : JVal), isObj v = false →
      v ≠ .vNull → addTagsV k v pre = some [(mkName pre k, v)]) ∧
    (∀ (k : String) (pre : Option String) (fs : JFields),
      addTagsV k (.vObj fs) pre = addTagsF fs (mkName pre k)) ∧
    (∀ (name k : String) (v : JVal) (r : JFields),
      addTagsF (.cons k v r) name =
        match addTagsV k v (some name), addTagsF r name with
        | some a, some b => some (a ++ b)
        | _, _ => none) ∧
    (∀ (p k : String), p ≠ "" → mkName (some p) k = p ++ "." ++ k) ∧
    addTagsV "a" (.vObj (.cons "b" (.vNum 1) (.cons "c" (.vNum 2) .nil)))
        (some "x") = some [("x.a.b", .vNum 1), ("x.a.c", .vNum 2)] := by
  refine ⟨fun k pre v h1 h2 => addTagsV_scalar k pre h1 h2,
    fun k pre fs => rfl, fun name k v r => rfl,
    fun p k hp => by simp [mkName, hp], by decide⟩

/-- C9, witness: the scalar clause and the path-extension clause at
concrete inputs. -/
theorem claim_C9_witness :
    addTagsV "y" (.vNum 4) (some "x") = some [("x.y", .vNum 4)] ∧
    mkName (some "x") "y" = "x" ++ "." ++ "y" :=
  ⟨claim_C9.1 "y" (some "x") (.vNum 4) (by decide) (by decide),
   claim_C9.2.2.2.1 "x" "y" (by decide)⟩

/-- C2: on a well-formed registry, a second `getTracer` call for the same
service name returns the identical tracer and leaves the state unchanged
(the pair equality subsumes both), and a `getTracer` call for a different
name — made after the first — returns a distinct tracer instance. -/
theorem claim_C2 (cfg : SamplerConfig) (st : ExporterState) (s t : JVal)
    (hWF : WFReg st) (hst : s ≠ t) :
    getTracer cfg (getTracer cfg st s).2 s = getTracer cfg st s ∧
    (getTracer cfg (getTracer cfg st s).2 t).1 ≠ (getTracer cfg st s).1 := by
  obtain ⟨hlt, hpw⟩ := hWF
  constructor
  · cases h : findTracer st.tracers s with
    | some tr => simp [getTracer, h]
    | none =>
      have h2 := findTracer_append_self h
        { serviceName := s, sampler := getSampler cfg none,
          reporterId := st.nextId, tracerId := st.nextId }
      simp [getTracer, h, h2]
  · cases h1 : findTracer st.tracers s with
    | some a =>
      cases h2 : findTracer st.tracers t with
      | some b =>
        have hma := findTracer_mem h1
        have hmb := findTracer_mem h2
        have hne : (s, a) ≠ (t, b) := fun hh => hst (congrArg Prod.fst hh)
        have hid : a.tracerId ≠ b.tracerId :=
          List.Pairwise.forall (fun _ _ hxy => hxy.symm) hpw hma hmb hne
        simp [getTracer, h1, h2]
        intro hba
        exact hid (by rw [hba])
      | none =>
        have hma := findTracer_mem h1
        have hlta := hlt _ hma
        simp [getTracer, h1, h2]
        intro hfresh
        rw [← hfresh] at hlta
        exact absurd hlta (by simp)
    | none =>
      have hft := findTracer_append_other hst st.tracers
        { serviceName := s, sampler := getSampler cfg none,
          reporterId := st.nextId, tracerId := st.nextId }
      cases h2 : findTracer st.tracers t with
      | some b =>
        have hmb := findTracer_mem h2
        have hltb := hlt _ hmb
        simp [getTracer, h1, hft, h2]
        intro hfresh
        rw [hfresh] at hltb
        exact absurd hltb (by simp)
      | none =>
        simp [getTracer, h1, hft, h2]

/-- C2, witness: both parts at the empty well-formed registry with the
distinct names `"a"` and `"b"`. -/
theorem claim_C2_witness :
    (WFReg ⟨[], 0⟩ ∧ JVal.vStr "a" ≠ .vStr "b") ∧
    (getTracer wCfg (getTracer wCfg ⟨[], 0⟩ (.vStr "a")).2 (.vStr "a") =
        getTracer wCfg ⟨[], 0⟩ (.vStr "a") ∧
      (getTracer wCfg (getTracer wCfg ⟨[], 0⟩ (.vStr "a")).2 (.vStr "b")).1 ≠
        (getTracer wCfg ⟨[], 0⟩ (.vStr "a")).1) :=
  ⟨⟨⟨by simp, List.Pairwise.nil⟩, by decide⟩,
   claim_C2 wCfg ⟨[], 0⟩ (.vStr "a") (.vStr "b")
     ⟨by simp, List.Pairwise.nil⟩ (by decide)⟩

/-- C5: every completed conversion yields a jaeger span whose context trace
and span ids are exactly `convertID span.traceID` and `convertID span.id`
(regardless of whatever ids `autoCtx` the backend tracer auto-generated),
whose parent context — when `span.parentID` is truthy ("present" in the
source's `if (span.parentID)` sense) — carries `convertID span.traceID` and
`convertID span.parentID` with the fixed flag value 1 and empty baggage,
and which is a root span (no parent context) otherwise. -/
theorem claim_C5 {cfg : SamplerConfig} {dflt : JVal} {st : ExporterState}
    {span : MolSpan} {autoCtx : SpanContext} {j : JaegerSpan}
    (h : (generateJaegerSpan cfg dflt st span autoCtx).jspan = some j) :
    j.context.traceId = convertID span.traceID ∧
    j.context.spanId = convertID span.id ∧
    (jsTruthyStr span.parentID = true →
      j.parent = some { traceId := convertID span.traceID,
                        spanId := convertID span.parentID,
                        flags := 1, baggage := [] }) ∧
    (jsTruthyStr span.parentID = false → j.parent = none) := by
  obtain ⟨pt, -, -, -, -, -, -, hparent, hctx⟩ := gen_jspan_inv h
  refine ⟨by rw [hctx], by rw [hctx], ?_, ?_⟩ <;>
    intro hp <;> rw [hparent] <;> simp [parentCtxOf, hp]

/-- C5, witness: the concrete span `w5span` (with a parent id) converts to
the explicit jaeger span `w5out`, and the theorem's conclusions hold for
it. -/
theorem claim_C5_witness :
    (generateJaegerSpan wCfg .vNull ⟨[], 0⟩ w5span w5auto).jspan = some w5out ∧
    (w5out.context.traceId = convertID w5span.traceID ∧
      w5out.context.spanId = convertID w5span.id ∧
      (jsTruthyStr w5span.parentID = true →
        w5out.parent = some { traceId := convertID w5span.traceID,
                              spanId := convertID w5span.parentID,
                              flags := 1, baggage := [] }) ∧
      (jsTruthyStr w5span.parentID = false → w5out.parent = none)) :=
  ⟨by decide,
   @claim_C5 wCfg (.vNull) ⟨[], 0⟩ w5span w5auto w5out (by decide)⟩

/-- C7, counterexample to the claim as stated. The claim's biconditional
"the error.data tag is present if and only if span.error.data is present"
fails when the `data` field is present but falsy: for `c7span`, whose error
carries `data = false`, the conversion completes yet the finished span has
no `error.data` tag, because the source guards the tag with the truthiness
test `if (span.error.data)`. -/
theorem claim_C7_counterexample :
    ((generateJaegerSpan wCfg .vNull ⟨[], 0⟩ c7span wAuto0).jspan.bind
        (fun j => lookupTag j.tags "error.data")) = none ∧
    ((generateJaegerSpan wCfg .vNull ⟨[], 0⟩ c7span wAuto0).jspan).isSome = true ∧
    c7err.data ≠ .vUndefined := by
  decide

/-- C7, amended: for every span whose error is set with scalar (non-object,
non-null) name, message, type and code, and whose pre-error tag map carries
no tags in the error namespace, the finished span's tags include
`error = true` and the four field tags with the span's error values; the
`error.data` tag is present if and only if `span.error.data` is present
with a truthy value (scalar data; truthy object-valued data would instead
be flattened under the `error.data.` prefix), and the `error.stack` tag —
holding the stringified stack — is present if and only if
`span.error.stack` is present with a truthy value. -/
theorem claim_C7_amended {cfg : SamplerConfig} {dflt : JVal}
    {st : ExporterState} {span : MolSpan} {autoCtx : SpanContext}
    {e : JErr} {pt : List (String × JVal)}
    (herr : span.error = some e)
    (hpt : preErrorTags dflt span = some pt)
    (hn1 : isObj e.name = false) (hn2 : e.name ≠ .vNull)
    (hm1 : isObj e.message = false) (hm2 : e.message ≠ .vNull)
    (ht1 : isObj e.type = false) (ht2 : e.type ≠ .vNull)
    (hc1 : isObj e.code = false) (hc2 : e.code ≠ .vNull)
    (hd1 : isObj e.data = false)
    (hclean : ∀ k ∈ ["error", "error.name", "error.message", "error.type",
        "error.code", "error.data", "error.stack"], lookupTag pt k = none) :
    ∃ j, (generateJaegerSpan cfg dflt st span autoCtx).jspan = some j ∧
      lookupTag j.tags "error" = some (.vBool true) ∧
      lookupTag j.tags "error.name" = some e.name ∧
      lookupTag j.tags "error.message" = some e.message ∧
      lookupTag j.tags "error.type" = some e.type ∧
      lookupTag j.tags "error.code" = some e.code ∧
      lookupTag j.tags "error.data" =
        (if truthy e.data then some e.data else none) ∧
      lookupTag j.tags "error.stack" =
        (if truthy e.stack then some (.vStr (jsToString e.stack)) else none) := by
  have hcl1 := hclean "error" (by simp)
  have hcl2 := hclean "error.name" (by simp)
  have hcl3 := hclean "error.message" (by simp)
  have hcl4 := hclean "error.type" (by simp)
  have hcl5 := hclean "error.code" (by simp)
  have hcl6 := hclean "error.data" (by simp)
  have hcl7 := hclean "error.stack" (by simp)
  have hets : errorTags e = some
      ([("error", JVal.vBool true), ("error.name", e.name),
        ("error.message", e.message), ("error.type", e.type),
        ("error.code", e.code)] ++
       (if truthy e.data then [("error.data", e.data)] else []) ++
       (if truthy e.stack then [("error.stack", JVal.vStr (jsToString e.stack))]
        else [])) := by
    unfold errorTags
    rw [addTagsV_scalar _ none hn1 hn2, addTagsV_scalar _ none hm1 hm2,
        addTagsV_scalar _ none ht1 ht2, addTagsV_scalar _ none hc1 hc2]
    by_cases hdt : truthy e.data
    · have hd2 : e.data ≠ .vNull := by
        intro hh
        rw [hh] at hdt
        simp [truthy] at hdt
      rw [if_pos hdt, addTagsV_scalar _ none hd1 hd2]
      simp [hdt, mkName]
    · rw [if_neg hdt]
      simp [hdt, mkName]
  have hres : (generateJaegerSpan cfg dflt st span autoCtx).jspan =
      some { name := span.name, startTime := span.startTime,
             parent := parentCtxOf span,
             context := { autoCtx with traceId := convertID span.traceID,
                                       spanId := convertID span.id },
             tags := applyTags pt
               ([("error", JVal.vBool true), ("error.name", e.name),
                 ("error.message", e.message), ("error.type", e.type),
                 ("error.code", e.code)] ++
                (if truthy e.data then [("error.data", e.data)] else []) ++
                (if truthy e.stack then
                  [("error.stack", JVal.vStr (jsToString e.stack))] else [])),
             finishTime := span.endTime, finished := true } := by
    simp [generateJaegerSpan, hpt, herr, hets]
  refine ⟨_, hres, ?_⟩
  by_cases hdt : truthy e.data <;> by_cases hst : truthy e.stack <;>
    simp [lookupTag_applyTags, lastV, hdt, hst,
      hcl1, hcl2, hcl3, hcl4, hcl5, hcl6, hcl7]

/-- C7, witness: the amended statement at the specification's example error
`{name: "E", message: "boom", type: "T", code: 500}` with no data and no
stack: all five unconditional tags appear and neither `error.data` nor
`error.stack` is present. -/
theorem claim_C7_witness :
    ∃ j, (generateJaegerSpan wCfg .vNull ⟨[], 0⟩ w7span wAuto0).jspan = some j ∧
      lookupTag j.tags "error" = some (.vBool true) ∧
      lookupTag j.tags "error.name" = some (.vStr "E") ∧
      lookupTag j.tags "error.message" = some (.vStr "boom") ∧
      lookupTag j.tags "error.type" = some (.vStr "T") ∧
      lookupTag j.tags "error.code" = some (.vNum 500) ∧
      lookupTag j.tags "error.data" = none ∧
      lookupTag j.tags "error.stack" = none :=
  @claim_C7_amended wCfg (.vNull) ⟨[], 0⟩ w7span wAuto0 w7err w7pt
    (by decide) (by decide) (by decide) (by decide) (by decide) (by decide)
    (by decide) (by decide) (by decide) (by decide) (by decide) (by decide)

/-- C8, counterexample to the claim as stated. The claim asserts the
conversion completes without raising regardless of the error field values,
null included. For `c8span`, whose error has `name = null`, the conversion
raises: JavaScript's `typeof null` is `"object"`, so `addTags` reaches
`Object.keys(null)`, which throws a TypeError. -/
theorem claim_C8_counterexample :
    (generateJaegerSpan wCfg .vNull ⟨[], 0⟩ c8span wAuto0).jspan = none ∧
    c8span.error.isSome = true := by
  decide

/-- C8, amended: for every span with `span.error` set, the conversion
completes without raising provided no null occurs in (or nested inside)
the error's name, message, type and code, in a truthy data value, or in the
resolved service name; null-valued fields make `addTags` throw a TypeError
instead. Object-valued error fields are fine: they are flattened
recursively. -/
theorem claim_C8_amended {cfg : SamplerConfig} {dflt : JVal}
    {st : ExporterState} {span : MolSpan} {autoCtx : SpanContext} {e : JErr}
    (herr : span.error = some e)
    (hsvc : nullFree (serviceNameOf span) = true)
    (hn : nullFree e.name = true) (hm : nullFree e.message = true)
    (ht : nullFree e.type = true) (hc : nullFree e.code = true)
    (hd : truthy e.data = true → nullFree e.data = true) :
    ((generateJaegerSpan cfg dflt st span autoCtx).jspan).isSome = true := by
  have hpt : (preErrorTags dflt span).isSome = true := by
    have h1 := addTagsV_total "service" (serviceNameOf span) none hsvc
    rw [Option.isSome_iff_exists] at h1
    obtain ⟨sT, hsT⟩ := h1
    simp [preErrorTags, hsT]
  rw [Option.isSome_iff_exists] at hpt
  obtain ⟨pt, hpt⟩ := hpt
  have hets : ∃ ets, errorTags e = some ets := by
    have h1 := addTagsV_total "error.name" e.name none hn
    have h2 := addTagsV_total "error.message" e.message none hm
    have h3 := addTagsV_total "error.type" e.type none ht
    have h4 := addTagsV_total "error.code" e.code none hc
    rw [Option.isSome_iff_exists] at h1 h2 h3 h4
    obtain ⟨nl, hnl⟩ := h1
    obtain ⟨ml, hml⟩ := h2
    obtain ⟨tl, htl⟩ := h3
    obtain ⟨cl, hcl⟩ := h4
    unfold errorTags
    rw [hnl, hml, htl, hcl]
    by_cases hdt : truthy e.data
    · have h5 := addTagsV_total "error.data" e.data none (hd hdt)
      rw [Option.isSome_iff_exists] at h5
      obtain ⟨dl, hdl⟩ := h5
      rw [if_pos hdt, hdl]
      exact ⟨_, rfl⟩
    · rw [if_neg hdt]
      exact ⟨_, rfl⟩
  obtain ⟨ets, hets⟩ := hets
  simp [generateJaegerSpan, hpt, herr, hets]

/-- C8, witness: the amended statement at the all-scalar example error of
`w7span`: the conversion completes. -/
theorem claim_C8_witness :
    ((generateJaegerSpan wCfg .vNull ⟨[], 0⟩ w7span wAuto0).jspan).isSome = true :=
  @claim_C8_amended wCfg (.vNull) ⟨[], 0⟩ w7span wAuto0 w7err
    (by decide) (by decide) (by decide) (by decide) (by decide) (by decide)
    (by decide)

/-- C10, counterexample to the claim as stated. The claim asserts the
conversion never mutates `span.service`. For `c10span`, whose tags carry
the object `{version: 2}` under the `service` key, `_.defaultsDeep`
deep-merges that source object into the destination's `service` slot —
which holds `span.service` itself by reference — so after the call
`span.service` has gained the `version` property. -/
theorem claim_C10_counterexample :
    (generateJaegerSpan wCfg .vNull ⟨[], 0⟩ c10span wAuto0).serviceAfter ≠
      c10span.service ∧
    (generateJaegerSpan wCfg .vNull ⟨[], 0⟩ c10span wAuto0).serviceAfter =
      .vObj (.cons "name" (.vStr "svc") (.cons "version" (.vNum 2) .nil)) := by
  decide

/-- C10, amended: the conversion leaves `span.service` unchanged whenever
neither `span.tags` nor the flattened `defaultTags` carries an object value
under the `service` key (in particular `span.tags` itself, a merge source,
is never mutated); when one of them does, the object `span.service` is
deep-merged into in place and may gain properties. -/
theorem claim_C10_amended {cfg : SamplerConfig} {dflt : JVal}
    {st : ExporterState} {span : MolSpan} {autoCtx : SpanContext}
    (htags : svcSrcOk span.tags = true) (hdflt : svcSrcOk dflt = true) :
    (generateJaegerSpan cfg dflt st span autoCtx).serviceAfter = span.service := by
  rw [gen_serviceAfter]
  by_cases hsv : isObj span.service
  · rw [if_pos hsv]
    cases hsvv : span.service with
    | vObj svf =>
      have hbase :
          (JFields.cons "service" (.vObj svf) .nil).lookup "service" =
            some (.vObj svf) := by
        simp [JFields.lookup]
      have hinner :
          (mergeF (.cons "service" (.vObj svf) .nil) span.tags).lookup "service" =
            some (.vObj svf) := by
        rw [lookup_mergeF, hbase]
        cases hsg : srcGet span.tags "service" with
        | none => rfl
        | some w => simp [mergeVals_obj_nonobj (svcSrcOk_spec htags w hsg)]
      rw [mergeSpanTags_eq]
      show ((mergeF (mergeF (.cons "service" (.vObj svf) .nil) span.tags)
        dflt).lookup "service").getD .vUndefined = JVal.vObj svf
      rw [lookup_mergeF, hinner]
      cases hdg : srcGet dflt "service" with
      | none => rfl
      | some w => simp [mergeVals_obj_nonobj (svcSrcOk_spec hdflt w hdg)]
    | vUndefined => rw [hsvv] at hsv; simp [isObj] at hsv
    | vNull => rw [hsvv] at hsv; simp [isObj] at hsv
    | vBool b => rw [hsvv] at hsv; simp [isObj] at hsv
    | vNum q => rw [hsvv] at hsv; simp [isObj] at hsv
    | vStr s => rw [hsvv] at hsv; simp [isObj] at hsv
  · rw [if_neg hsv]

/-- C10, witness: the amended statement at a span whose tags have no
`service` key: `span.service` is untouched. -/
theorem claim_C10_witness :
    (generateJaegerSpan wCfg .vNull ⟨[], 0⟩ w10span wAuto0).serviceAfter =
      w10span.service :=
  @claim_C10_amended wCfg (.vNull) ⟨[], 0⟩ w10span wAuto0 (by decide) (by decide)

end JaegerSpec
